import Mathlib

/-!
Shallow embedding of the SpeedHive throughput-measurement engine
(`src/src-tauri/src/lib.rs`): the download prober `download_speed_test`,
the upload prober `upload_speed_test`, the error-chain formatter
`format_error_with_chain`, and the event types they emit.

Modelling conventions:
* Time is modelled at millisecond granularity.  Every `Instant` reading the
  code performs inside one loop iteration is modelled as the same
  millisecond value, supplied by the environment through a `clock` function
  indexed by the iteration counter.  `as_secs_f64` therefore becomes the
  exact rational `ms / 1000`.
* `f64` arithmetic (throughput formulas) is modelled as exact arithmetic
  over `ℚ`.
* The network is an explicit environment: connection outcomes, HTTP
  statuses, streamed chunks and the number of body bytes the transport
  polls are all environment data, so every theorem quantifies over all
  network behaviours expressible in the model.
* The upload prober's two concurrent tasks (transfer loop and progress
  reporter) are merged deterministically: the reporter wakes every 250 ms
  and emits unless the done flag is set, and the done flag becomes visible
  the millisecond the transfer loop exits; the 50 ms shutdown sleep then
  separates the last Progress from the terminal Finished, as the code
  intends.
-/

/-- A `std::error::Error` value together with its `source()` chain:
the top-level message and the messages of the causes, outermost first. -/
structure ErrChain where
  msg : String
  causes : List String
deriving DecidableEq

/-- The `while let Some(e) = cur` loop of `format_error_with_chain`:
the text appended after the top-level message, one cause at a time. -/
def chainSuffix : List String → String
  | [] => ""
  | c :: rest => "\ncaused by: " ++ c ++ chainSuffix rest

/-- The function `format_error_with_chain` (src/src-tauri/src/lib.rs lines 28-37):
the top-level message followed by one "caused by: " line per cause,
walking the cause chain until exhausted. -/
def format_error_with_chain (e : ErrChain) : String :=
  e.msg ++ chainSuffix e.causes

/-- The event type `DownloadSpeedEvent` (lines 170-177).  Rates are modelled in `ℚ`. -/
inductive DownloadSpeedEvent
  | Started (url : String) (duration_ms : Nat)
  | Progress (elapsed_ms : Nat) (bytes : Nat) (mbps : ℚ)
  | Finished (elapsed_ms : Nat) (bytes : Nat) (avg_mbps : ℚ)
  | Error (message : String)
deriving DecidableEq

/-- The event type `UploadSpeedEvent` (lines 359-380). -/
inductive UploadSpeedEvent
  | Started (url : String) (duration_ms : Nat) (chunk_size : Nat)
  | Progress (elapsed_ms : Nat) (bytes : Nat) (mbps : ℚ)
  | Finished (elapsed_ms : Nat) (bytes : Nat) (avg_mbps : ℚ)
  | Error (message : String)
deriving DecidableEq

/-- The megabits-per-second formula both probers use:
`bytes * 8.0 / (secs.max(0.001) * 1_000_000.0)` with `secs = ms / 1000`.
Callers pass either interval deltas or cumulative totals. -/
def mbpsOf (bytes ms : Nat) : ℚ :=
  ((bytes : ℚ) * 8) / (max ((ms : ℚ) / 1000) (1 / 1000) * 1000000)

/-- First fixed download fallback URL (line 49). -/
def fallback1 : String := "https://speed.cloudflare.com/__down?bytes=25000000"

/-- Second fixed download fallback URL (line 51). -/
def fallback2 : String := "http://ipv4.download.thinkbroadband.com/10MB.zip"

/-- The test `url.trim().is_empty()`: the trimmed string is empty exactly when
every character of `url` is whitespace (trimming only removes leading and
trailing whitespace). -/
def isBlank (url : String) : Bool := url.data.all Char.isWhitespace

/-- The candidate list of `download_speed_test` (lines 43-53): the
user-supplied URL first when its trim is non-empty, then the two fixed
fallbacks. -/
def candidates (url : String) : List String :=
  (if isBlank url then [] else [url]) ++ [fallback1, fallback2]

/-- Outcome of `client.get(&u).send().await` for one candidate:
either a transport/connect failure carrying its error chain, or a
response carrying `status().is_success()` and the status display text. -/
inductive DlConn
  | connectErr (e : ErrChain)
  | response (ok : Bool) (status : String)
deriving DecidableEq

/-- One item pulled from `response.bytes_stream()`: a data chunk of the
given length, or a mid-stream read error (its display text).  The end of
the list models `None`, the natural end of the stream. -/
inductive DlItem
  | chunk (len : Nat)
  | readErr (msg : String)
deriving DecidableEq

/-- Environment of one download session: whether building the HTTP client
fails, the connection outcome of each candidate attempt, the byte stream
each candidate would deliver if chosen, and the elapsed-milliseconds
reading at each read-loop iteration. -/
structure DlEnv where
  clientErr : Option ErrChain
  conn : Nat → DlConn
  streams : Nat → List DlItem
  clock : Nat → Nat

/-- Result of the candidate-selection loop (lines 75-99). -/
inductive SelOut
  | httpError (u status : String)
  | chosen (i : Nat)
  | exhausted (lastErr : Option ErrChain)

/-- The `for u in candidates` loop (lines 75-99): emits `Started` for each
candidate before its request; a transport failure records the error and
moves on; a non-success status ends selection with `httpError`; a success
chooses the candidate's stream. -/
def selectLoop (env : DlEnv) (d : Nat) :
    List String → Nat → Option ErrChain → List DownloadSpeedEvent × SelOut
  | [], _, lastErr => ([], .exhausted lastErr)
  | u :: rest, i, lastErr =>
    match env.conn i with
    | .connectErr e =>
      let r := selectLoop env d rest (i + 1) (some e)
      (.Started u d :: r.1, r.2)
    | .response ok st =>
      if ok then ([.Started u d], .chosen i)
      else ([.Started u d], .httpError u st)

/-- The `let Some(mut stream) = stream else` message (lines 101-108). -/
def noStreamMsg : Option ErrChain → String
  | some e => "Request failed:\n" ++ format_error_with_chain e
  | none => "Request failed: no URL candidates"

/-- The progress-emission decision inside the read loop (lines 141-155):
emit iff at least 250 ms passed since the last emission; the rate is the
interval rate over the bytes and time since the last emission. -/
def progressEmit (now lastEmitT total lastBytes : Nat) : Option DownloadSpeedEvent :=
  if 250 ≤ now - lastEmitT then
    some (.Progress now total (mbpsOf (total - lastBytes) (now - lastEmitT)))
  else none

/-- How the download read loop ended: cleanly (deadline reached or stream
exhausted, recording the final elapsed reading and byte total), or with a
mid-stream read error. -/
inductive DlEnd
  | clean (elapsedMs total : Nat)
  | readError (msg : String)

/-- The read loop of `download_speed_test` (lines 119-156): each iteration
first checks the deadline, then pulls the next stream item; chunks
accumulate bytes and may trigger a `Progress` emission; a read error ends
the session with an error; stream end breaks cleanly. -/
def dlLoop (env : DlEnv) (stopAfter : Nat) (items : List DlItem)
    (n total lastEmitT lastBytes : Nat) : List DownloadSpeedEvent × DlEnd :=
  if stopAfter ≤ env.clock n then ([], .clean (env.clock n) total)
  else
    match items with
    | [] => ([], .clean (env.clock n) total)
    | .readErr msg :: _ => ([], .readError msg)
    | .chunk len :: rest =>
      let total' := total + len
      match progressEmit (env.clock n) lastEmitT total' lastBytes with
      | some ev =>
        let r := dlLoop env stopAfter rest (n + 1) total' (env.clock n) total'
        (ev :: r.1, r.2)
      | none => dlLoop env stopAfter rest (n + 1) total' lastEmitT lastBytes

/-- The terminal event built after the read loop (lines 129-134 and
158-166): a read error reports `Error`; otherwise `Finished` with the
cumulative-average rate over the whole session. -/
def dlTerminal : DlEnd → DownloadSpeedEvent
  | .clean ms total => .Finished ms total (mbpsOf total ms)
  | .readError msg => .Error ("Download failed: " ++ msg)

/-- The event trace of one `download_speed_test` session (lines 23-168):
client construction, candidate selection with fallback, then the timed
read loop and its terminal event. -/
def download_speed_test (env : DlEnv) (url : String) (duration_ms : Nat) :
    List DownloadSpeedEvent :=
  match env.clientErr with
  | some e =>
    [.Error ("Failed to build HTTP client:\n" ++ format_error_with_chain e)]
  | none =>
    let sel := selectLoop env duration_ms (candidates url) 0 none
    match sel.2 with
    | .httpError u st => sel.1 ++ [.Error ("HTTP error from " ++ u ++ ": " ++ st)]
    | .exhausted lastErr => sel.1 ++ [.Error (noStreamMsg lastErr)]
    | .chosen i =>
      let r := dlLoop env (max duration_ms 250) (env.streams i) 0 0 0 0
      sel.1 ++ r.1 ++ [dlTerminal r.2]

/-- Whether the event is a `Started` event. -/
def isStartedB : DownloadSpeedEvent → Bool
  | .Started _ _ => true
  | _ => false

/-- Whether the event is a `Progress` event. -/
def isProgressB : DownloadSpeedEvent → Bool
  | .Progress _ _ _ => true
  | _ => false

/-- Whether the event is terminal (`Finished` or `Error`). -/
def isTerminalB : DownloadSpeedEvent → Bool
  | .Finished _ _ _ => true
  | .Error _ => true
  | _ => false

/-- Number of `Started` events in a download trace. -/
def startedCountD (l : List DownloadSpeedEvent) : Nat := l.countP isStartedB

/-! ## Upload prober embedding -/

/-- The effective chunk size: `chunk_size.clamp(8 * 1024, 1024 * 1024)`
(line 200). -/
def effectiveChunk (c : Nat) : Nat := min 1048576 (max 8192 c)

/-- The initial adaptive request size (lines 238-239):
`(chunk_size as u64) * 16` then `.clamp(64 * 1024, 8 * 1024 * 1024)`. -/
def initRequestBytes (chunkSize : Nat) : Nat :=
  min 8388608 (max 65536 (chunkSize * 16))

/-- The upload byte cap: `200 * 1024 * 1024` (line 232). -/
def maxUploadBytes : Nat := 200 * 1024 * 1024

/-- How one POST round ended: a transport failure of `send()`, or a
response with `status().is_success()` equal to `ok`. -/
inductive UpOutcome
  | transportErr
  | status (ok : Bool)
deriving DecidableEq

/-- One request round as seen from the transfer loop: how many body bytes
the transport polled from the body stream before the outcome (the loop
counts `min polled request_bytes`, since the stream yields at most
`request_bytes` bytes in total), and the outcome itself. -/
structure UpRound where
  polled : Nat
  outcome : UpOutcome

/-- Environment of one upload session: whether building the HTTP client
fails, the elapsed-milliseconds reading at each while-condition check, the
result of each request round, and the byte-counter value the concurrent
progress reporter reads at its k-th 250 ms tick. -/
structure UpEnv where
  clientErr : Option ErrChain
  clock : Nat → Nat
  round : Nat → UpRound
  progressBytes : Nat → Nat

/-- Why the transfer loop exited. -/
inductive UpExit
  | deadline
  | byteCap
  | transportFail
  | rejectFloor
deriving DecidableEq

/-- Result of the transfer loop: final byte total, the elapsed reading at
which the done flag is set, the exit cause, and the request sizes used,
in order of issue. -/
structure UpResult where
  total : Nat
  endClockMs : Nat
  exit : UpExit
  sizes : List Nat
deriving DecidableEq

/-- The body stream of one request (lines 281-310): slices of the
zero-filled chunk buffer drawn until `remaining` is exhausted, as the list
of chunk lengths.  (The `chunkSize = 0` guard is unreachable in a session:
the chunk size is clamped to at least 8 KiB.) -/
def bodyChunks (chunkSize : Nat) (remaining : Nat) : List Nat :=
  if h : remaining = 0 ∨ chunkSize = 0 then []
  else
    min remaining chunkSize :: bodyChunks chunkSize (remaining - min remaining chunkSize)
termination_by remaining
decreasing_by
  simp only [not_or] at h
  have h1 : 0 < remaining := Nat.pos_of_ne_zero h.1
  have h2 : 0 < chunkSize := Nat.pos_of_ne_zero h.2
  omega

/-- The transfer loop of `upload_speed_test` (lines 275-337), with an
explicit recursion budget `fuel` (the loop itself has no such budget; the
termination theorem shows a budget of one round past the deadline always
suffices when each request round-trip advances the clock).  Each passing
iteration issues one request of the current adaptive size, counts the
bytes the transport polled, and reacts to the outcome: transport failure
stops the loop; a non-success status halves the size (floor 64 KiB) and
continues, or stops at the floor; success continues unchanged. -/
def upLoopGo (env : UpEnv) (stop : Nat) (fuel n total rb : Nat) (acc : List Nat) :
    Option UpResult :=
  match fuel with
  | 0 => none
  | fuel + 1 =>
    if stop ≤ env.clock n then some ⟨total, env.clock n, .deadline, acc.reverse⟩
    else if maxUploadBytes ≤ total then some ⟨total, env.clock n, .byteCap, acc.reverse⟩
    else
      let total' := total + min (env.round n).polled rb
      match (env.round n).outcome with
      | .transportErr => some ⟨total', env.clock (n + 1), .transportFail, (rb :: acc).reverse⟩
      | .status true => upLoopGo env stop fuel (n + 1) total' rb (rb :: acc)
      | .status false =>
        if 65536 < rb then
          upLoopGo env stop fuel (n + 1) total' (max 65536 (rb / 2)) (rb :: acc)
        else some ⟨total', env.clock (n + 1), .rejectFloor, (rb :: acc).reverse⟩

/-- The adaptive request size at the j-th request of a session whose
initial size is `rb0`: halved with floor 64 KiB after each non-success
response, unchanged otherwise. -/
def sizeAt (env : UpEnv) (rb0 : Nat) : Nat → Nat
  | 0 => rb0
  | j + 1 =>
    match (env.round j).outcome with
    | .status false => max 65536 (sizeAt env rb0 j / 2)
    | _ => sizeAt env rb0 j

/-- The emissions of the progress reporter task (lines 246-272): it wakes
every 250 ms and, unless the done flag is set, emits a `Progress` whose
rate is the cumulative average of the byte counter it reads over the total
elapsed time.  `doneMs` is the elapsed reading at which the transfer loop
sets the done flag. -/
def uploadProgressEvents (env : UpEnv) (doneMs : Nat) : List UploadSpeedEvent :=
  ((List.range (doneMs / 250 + 1)).filter
      (fun k => decide (0 < k ∧ 250 * k < doneMs))).map
    (fun k => .Progress (250 * k) (env.progressBytes k) (mbpsOf (env.progressBytes k) (250 * k)))

/-- The event trace of one `upload_speed_test` session (lines 179-357):
`Started` first, then either the client-construction `Error`, or the
reporter's `Progress` events followed by the single terminal `Finished`
(emitted 50 ms after the done flag is set, with the cumulative-average
rate).  `none` means the recursion budget was too small to finish the
transfer loop. -/
def upload_speed_test (env : UpEnv) (url : String) (duration_ms chunk_size fuel : Nat) :
    Option (List UploadSpeedEvent) :=
  let chunkSize := effectiveChunk chunk_size
  let started := UploadSpeedEvent.Started url duration_ms chunkSize
  match env.clientErr with
  | some e =>
    some [started, .Error ("Failed to build HTTP client:\n" ++ format_error_with_chain e)]
  | none =>
    let stopAfter := max duration_ms 250
    match upLoopGo env stopAfter fuel 0 0 (initRequestBytes chunkSize) [] with
    | none => none
    | some res =>
      let finalMs := res.endClockMs + 50
      some (started :: uploadProgressEvents env res.endClockMs ++
        [.Finished finalMs res.total (mbpsOf res.total finalMs)])

/-- Whether the upload event is a `Progress` event. -/
def isProgressUB : UploadSpeedEvent → Bool
  | .Progress _ _ _ => true
  | _ => false

/-- Whether the upload event is terminal (`Finished` or `Error`). -/
def isTerminalUB : UploadSpeedEvent → Bool
  | .Finished _ _ _ => true
  | .Error _ => true
  | _ => false

/-- The clock hypothesis for upload termination: each request round-trip
advances the elapsed reading by at least one millisecond. -/
def HClock (env : UpEnv) : Prop := ∀ m, env.clock m + 1 ≤ env.clock (m + 1)

/-- The bytes of the final `Finished` event of a trace, when there is
one. -/
def finalBytes? (tr : Option (List UploadSpeedEvent)) : Option Nat :=
  tr.bind fun l =>
    l.getLast?.bind fun e =>
      match e with
      | .Finished _ b _ => some b
      | _ => none

/-! ## Concrete session environments used by witnesses and counterexamples -/

/-- Environment refuting the original C1: the first candidate fails to
connect, the second succeeds with an immediately exhausted stream. -/
def c1cexEnv : DlEnv where
  clientErr := none
  conn := fun n =>
    if n = 0 then .connectErr ⟨"connection refused", []⟩ else .response true ""
  streams := fun _ => []
  clock := fun _ => 0

/-- Upload environment whose HTTP client fails to build. -/
def c1wEnv : UpEnv where
  clientErr := some ⟨"tls backend unavailable", []⟩
  clock := fun _ => 0
  round := fun _ => ⟨0, .status true⟩
  progressBytes := fun _ => 0

/-- Download environment for the C4 witness: first candidate refuses the
connection, second returns HTTP 500. -/
def c4wEnv : DlEnv where
  clientErr := none
  conn := fun n =>
    if n = 0 then .connectErr ⟨"connection refused", []⟩
    else .response false "500 Internal Server Error"
  streams := fun _ => []
  clock := fun _ => 0

/-- Download environment for the C6 witness: every connection attempt
fails with a nested cause. -/
def c6wEnv : DlEnv where
  clientErr := none
  conn := fun _ => .connectErr ⟨"network down", ["dns failure"]⟩
  streams := fun _ => []
  clock := fun _ => 0

/-- Upload environment for the C2 witness: every request succeeds but the
transport polls no bytes; the loop runs to the deadline. -/
def c2wEnv : UpEnv where
  clientErr := none
  clock := fun n => n
  round := fun _ => ⟨0, .status true⟩
  progressBytes := fun _ => 0

/-- Upload environment for the C3 witness: the first request is rejected,
later ones succeed, nothing is polled, and the clock advances 100 ms per
round. -/
def c3wEnv : UpEnv where
  clientErr := none
  clock := fun n => 100 * n
  round := fun n => if n = 0 then ⟨0, .status false⟩ else ⟨0, .status true⟩
  progressBytes := fun _ => 0

/-- Upload environment for the C5 witness: the server rejects every
request. -/
def c5wEnv : UpEnv where
  clientErr := none
  clock := fun n => n
  round := fun _ => ⟨0, .status false⟩
  progressBytes := fun _ => 0

/-- Upload environment for the C9 witness. -/
def c9wEnv : UpEnv where
  clientErr := some ⟨"bad native tls", []⟩
  clock := fun _ => 0
  round := fun _ => ⟨0, .status true⟩
  progressBytes := fun _ => 0

/-- Upload environment exercising the byte-cap overshoot: every request
succeeds with the whole body polled, the clock advances 1 ms per round,
and the chunk input of 24,576 bytes gives requests of 393,216 bytes, so
the 534th request pushes the counter past the 200 MiB cap. -/
def c10Env : UpEnv where
  clientErr := none
  clock := fun n => n
  round := fun _ => ⟨8388608, .status true⟩
  progressBytes := fun _ => 0

/-- Upload environment for the C10 witness. -/
def c10wEnv : UpEnv where
  clientErr := none
  clock := fun n => 125 * n
  round := fun _ => ⟨8388608, .status true⟩
  progressBytes := fun _ => 0

/-- Download environment refuting the original C7 formula: one megabyte
delivered over one second. -/
def c7cexEnv : DlEnv where
  clientErr := none
  conn := fun _ => .response true ""
  streams := fun _ => [.chunk 1000000]
  clock := fun n => 1000 * n

/-- Download environment for the C7 witness. -/
def c7wEnv : DlEnv where
  clientErr := none
  conn := fun _ => .response true ""
  streams := fun _ => [.chunk 1000000]
  clock := fun n => 1000 * n

/-- Download environment for C8: three chunks arriving 300 ms apart. -/
def c8Env : DlEnv where
  clientErr := none
  conn := fun _ => .response true ""
  streams := fun _ => [.chunk 1000, .chunk 500, .chunk 200]
  clock := fun n => 300 * n

/-! ## Helper lemmas -/

lemma string_foldl_append (l : List String) :
    ∀ a b : String, l.foldl (· ++ ·) (a ++ b) = a ++ l.foldl (· ++ ·) b := by
  induction l with
  | nil => intro a b; rfl
  | cons c l ih =>
    intro a b
    simp only [List.foldl_cons]
    rw [String.append_assoc, ih]

lemma stringJoin_cons (s : String) (l : List String) :
    String.join (s :: l) = s ++ String.join l := by
  show l.foldl (· ++ ·) ("" ++ s) = s ++ l.foldl (· ++ ·) ""
  rw [String.empty_append, ← String.append_empty s, string_foldl_append l s ""]
  rw [String.append_empty]

lemma chainSuffix_eq_join (cs : List String) :
    chainSuffix cs = String.join (cs.map (fun c => "\ncaused by: " ++ c)) := by
  induction cs with
  | nil => rfl
  | cons c cs ih =>
    simp only [chainSuffix, List.map_cons, stringJoin_cons, ih, String.append_assoc]

lemma selectLoop_mem_started (env : DlEnv) (d : Nat) :
    ∀ (l : List String) (i : Nat) (le : Option ErrChain) (e : DownloadSpeedEvent),
      e ∈ (selectLoop env d l i le).1 → isStartedB e = true := by
  intro l
  induction l with
  | nil =>
    intro i le e h
    simp [selectLoop] at h
  | cons u rest ih =>
    intro i le e h
    rw [selectLoop] at h
    rcases hc : env.conn i with e' | ⟨ok, st⟩ <;> rw [hc] at h
    · simp only [List.mem_cons] at h
      rcases h with rfl | h
      · rfl
      · exact ih (i + 1) (some e') e h
    · cases ok <;> simp only [Bool.false_eq_true, if_false, if_true] at h <;>
        (simp only [List.mem_singleton] at h; subst h; rfl)

lemma selectLoop_head (env : DlEnv) (d : Nat) (u : String) (rest : List String)
    (i : Nat) (le : Option ErrChain) :
    ∃ tl, (selectLoop env d (u :: rest) i le).1 = .Started u d :: tl := by
  rw [selectLoop]
  rcases hc : env.conn i with e' | ⟨ok, st⟩
  · exact ⟨_, rfl⟩
  · cases ok
    · exact ⟨[], rfl⟩
    · exact ⟨[], rfl⟩

lemma selectLoop_skip (env : DlEnv) (d : Nat) (es : Nat → ErrChain) :
    ∀ (k : Nat) (l : List String) (i : Nat) (le : Option ErrChain),
      k ≤ l.length →
      (∀ j, j < k → env.conn (i + j) = .connectErr (es (i + j))) →
      selectLoop env d l i le =
        ((l.take k).map (fun u => .Started u d) ++
            (selectLoop env d (l.drop k) (i + k)
              (if k = 0 then le else some (es (i + k - 1)))).1,
          (selectLoop env d (l.drop k) (i + k)
            (if k = 0 then le else some (es (i + k - 1)))).2) := by
  intro k
  induction k with
  | zero => intro l i le _ _; simp
  | succ k ih =>
    intro l i le hk hf
    match l with
    | [] => simp at hk
    | u :: rest =>
      have hc : env.conn i = .connectErr (es i) := by
        have h0 := hf 0 (Nat.succ_pos k)
        simpa using h0
      have hrest : k ≤ rest.length := by simpa using hk
      have hf' : ∀ j, j < k → env.conn (i + 1 + j) = .connectErr (es (i + 1 + j)) := by
        intro j hj
        have hj1 := hf (j + 1) (by omega)
        have he : i + (j + 1) = i + 1 + j := by omega
        rw [he] at hj1
        exact hj1
      have hle : (if k = 0 then some (es i) else some (es (i + 1 + k - 1))) =
          some (es (i + k)) := by
        rcases k with _ | k
        · simp
        · have he : i + 1 + (k + 1) - 1 = i + (k + 1) := by omega
          simp [he]
      have hidx : i + (k + 1) = i + 1 + k := by omega
      rw [selectLoop, hc]
      show (DownloadSpeedEvent.Started u d :: (selectLoop env d rest (i + 1) (some (es i))).1,
          (selectLoop env d rest (i + 1) (some (es i))).2) = _
      rw [ih rest (i + 1) (some (es i)) hrest hf', hle]
      simp only [List.take_succ_cons, List.drop_succ_cons, List.map_cons, List.cons_append,
        hidx]
      have hk0 : (if k + 1 = 0 then le else some (es (i + 1 + k - 1))) =
          some (es (i + k)) := by
        have he : i + 1 + k - 1 = i + k := by omega
        simp [he]
      rw [hk0]

lemma progressEmit_eq_some {now lastT total lastB : Nat} {ev : DownloadSpeedEvent}
    (h : progressEmit now lastT total lastB = some ev) :
    ev = .Progress now total (mbpsOf (total - lastB) (now - lastT)) := by
  unfold progressEmit at h
  split at h
  · exact (Option.some.inj h).symm
  · exact absurd h (by simp)

lemma dlLoop_stop (env : DlEnv) (stop : Nat) (items : List DlItem)
    (n total lastT lastB : Nat) (hstop : stop ≤ env.clock n) :
    dlLoop env stop items n total lastT lastB = ([], .clean (env.clock n) total) := by
  rw [dlLoop.eq_def, if_pos hstop]

lemma dlLoop_nil (env : DlEnv) (stop : Nat) (n total lastT lastB : Nat)
    (hstop : ¬ stop ≤ env.clock n) :
    dlLoop env stop [] n total lastT lastB = ([], .clean (env.clock n) total) := by
  rw [dlLoop.eq_def, if_neg hstop]

lemma dlLoop_readErr (env : DlEnv) (stop : Nat) (msg : String) (rest : List DlItem)
    (n total lastT lastB : Nat) (hstop : ¬ stop ≤ env.clock n) :
    dlLoop env stop (.readErr msg :: rest) n total lastT lastB = ([], .readError msg) := by
  rw [dlLoop.eq_def, if_neg hstop]

lemma dlLoop_chunk (env : DlEnv) (stop len : Nat) (rest : List DlItem)
    (n total lastT lastB : Nat) (hstop : ¬ stop ≤ env.clock n) :
    dlLoop env stop (.chunk len :: rest) n total lastT lastB =
      match progressEmit (env.clock n) lastT (total + len) lastB with
      | some ev =>
        (ev :: (dlLoop env stop rest (n + 1) (total + len) (env.clock n) (total + len)).1,
          (dlLoop env stop rest (n + 1) (total + len) (env.clock n) (total + len)).2)
      | none => dlLoop env stop rest (n + 1) (total + len) lastT lastB := by
  rw [dlLoop.eq_def, if_neg hstop]

lemma dlLoop_mem_progress (env : DlEnv) (stop : Nat) :
    ∀ (items : List DlItem) (n total lastT lastB : Nat) (e : DownloadSpeedEvent),
      e ∈ (dlLoop env stop items n total lastT lastB).1 → isProgressB e = true := by
  intro items
  induction items with
  | nil =>
    intro n total lastT lastB e h
    by_cases hstop : stop ≤ env.clock n
    · rw [dlLoop_stop env stop _ n total lastT lastB hstop] at h; simp at h
    · rw [dlLoop_nil env stop n total lastT lastB hstop] at h; simp at h
  | cons it rest ih =>
    intro n total lastT lastB e h
    by_cases hstop : stop ≤ env.clock n
    · rw [dlLoop_stop env stop _ n total lastT lastB hstop] at h; simp at h
    · rcases it with len | msg
      · rw [dlLoop_chunk env stop len rest n total lastT lastB hstop] at h
        rcases hp : progressEmit (env.clock n) lastT (total + len) lastB with _ | ev' <;>
          rw [hp] at h
        · exact ih (n + 1) (total + len) lastT lastB e h
        · simp only [List.mem_cons] at h
          rcases h with rfl | h
          · rw [progressEmit_eq_some hp]; rfl
          · exact ih (n + 1) (total + len) (env.clock n) (total + len) e h
      · rw [dlLoop_readErr env stop msg rest n total lastT lastB hstop] at h; simp at h

lemma isTerminalB_dlTerminal (x : DlEnd) : isTerminalB (dlTerminal x) = true := by
  cases x <;> rfl

lemma uploadProgressEvents_mem (env : UpEnv) (doneMs : Nat) (e : UploadSpeedEvent)
    (h : e ∈ uploadProgressEvents env doneMs) : isProgressUB e = true := by
  unfold uploadProgressEvents at h
  rcases List.mem_map.1 h with ⟨k, _, rfl⟩
  rfl

lemma candidates_cons (url : String) :
    ∃ u rest, candidates url = u :: rest := by
  unfold candidates
  split
  · exact ⟨fallback1, [fallback2], rfl⟩
  · exact ⟨url, [fallback1, fallback2], rfl⟩

lemma candidates_length (url : String) : 2 ≤ (candidates url).length := by
  unfold candidates
  split <;> simp

lemma download_trace_sel_prefix (env : DlEnv) (url : String) (d : Nat)
    (hc : env.clientErr = none) :
    ∃ rest2, download_speed_test env url d =
      (selectLoop env d (candidates url) 0 none).1 ++ rest2 := by
  unfold download_speed_test
  rw [hc]
  rcases h2 : (selectLoop env d (candidates url) 0 none).2 with ⟨u, st⟩ | i | le <;>
    simp only [h2]
  · exact ⟨_, rfl⟩
  · exact ⟨_, by rw [List.append_assoc]⟩
  · exact ⟨_, rfl⟩

lemma upload_trace_clientOk (env : UpEnv) (url : String) (d c fuel : Nat)
    (hce : env.clientErr = none) :
    upload_speed_test env url d c fuel =
      match upLoopGo env (max d 250) fuel 0 0 (initRequestBytes (effectiveChunk c)) [] with
      | none => none
      | some res =>
        some (UploadSpeedEvent.Started url d (effectiveChunk c) ::
          uploadProgressEvents env res.endClockMs ++
          [.Finished (res.endClockMs + 50) res.total (mbpsOf res.total (res.endClockMs + 50))]) := by
  unfold upload_speed_test
  rw [hce]

lemma upload_trace_clientFail (env : UpEnv) (url : String) (d c fuel : Nat) (e : ErrChain)
    (hce : env.clientErr = some e) :
    upload_speed_test env url d c fuel =
      some [UploadSpeedEvent.Started url d (effectiveChunk c),
        .Error ("Failed to build HTTP client:\n" ++ format_error_with_chain e)] := by
  unfold upload_speed_test
  rw [hce]

lemma getLast?_cons_append {α : Type} (a : α) (l : List α) (b : α) :
    (a :: (l ++ [b])).getLast? = some b := by
  rw [← List.cons_append, List.getLast?_concat]

lemma upLoopGo_zero (env : UpEnv) (stop n total rb : Nat) (acc : List Nat) :
    upLoopGo env stop 0 n total rb acc = none := rfl

lemma upLoopGo_succ (env : UpEnv) (stop fuel n total rb : Nat) (acc : List Nat) :
    upLoopGo env stop (fuel + 1) n total rb acc =
      if stop ≤ env.clock n then some ⟨total, env.clock n, .deadline, acc.reverse⟩
      else if maxUploadBytes ≤ total then
        some ⟨total, env.clock n, .byteCap, acc.reverse⟩
      else
        match (env.round n).outcome with
        | .transportErr =>
          some ⟨total + min (env.round n).polled rb, env.clock (n + 1), .transportFail,
            (rb :: acc).reverse⟩
        | .status true =>
          upLoopGo env stop fuel (n + 1) (total + min (env.round n).polled rb) rb (rb :: acc)
        | .status false =>
          if 65536 < rb then
            upLoopGo env stop fuel (n + 1) (total + min (env.round n).polled rb)
              (max 65536 (rb / 2)) (rb :: acc)
          else
            some ⟨total + min (env.round n).polled rb, env.clock (n + 1), .rejectFloor,
              (rb :: acc).reverse⟩ := rfl

lemma upLoopGo_deadline (env : UpEnv) (stop fuel n total rb : Nat) (acc : List Nat)
    (h1 : stop ≤ env.clock n) :
    upLoopGo env stop (fuel + 1) n total rb acc =
      some ⟨total, env.clock n, .deadline, acc.reverse⟩ := by
  rw [upLoopGo_succ, if_pos h1]

lemma upLoopGo_cap (env : UpEnv) (stop fuel n total rb : Nat) (acc : List Nat)
    (h1 : ¬ stop ≤ env.clock n) (h2 : maxUploadBytes ≤ total) :
    upLoopGo env stop (fuel + 1) n total rb acc =
      some ⟨total, env.clock n, .byteCap, acc.reverse⟩ := by
  rw [upLoopGo_succ, if_neg h1, if_pos h2]

lemma upLoopGo_transport (env : UpEnv) (stop fuel n total rb : Nat) (acc : List Nat)
    (h1 : ¬ stop ≤ env.clock n) (h2 : ¬ maxUploadBytes ≤ total)
    (h3 : (env.round n).outcome = .transportErr) :
    upLoopGo env stop (fuel + 1) n total rb acc =
      some ⟨total + min (env.round n).polled rb, env.clock (n + 1), .transportFail,
        (rb :: acc).reverse⟩ := by
  rw [upLoopGo_succ, if_neg h1, if_neg h2]
  simp only [h3]

lemma upLoopGo_success (env : UpEnv) (stop fuel n total rb : Nat) (acc : List Nat)
    (h1 : ¬ stop ≤ env.clock n) (h2 : ¬ maxUploadBytes ≤ total)
    (h3 : (env.round n).outcome = .status true) :
    upLoopGo env stop (fuel + 1) n total rb acc =
      upLoopGo env stop fuel (n + 1) (total + min (env.round n).polled rb) rb
        (rb :: acc) := by
  rw [upLoopGo_succ, if_neg h1, if_neg h2]
  simp only [h3]

lemma upLoopGo_rejectHigh (env : UpEnv) (stop fuel n total rb : Nat) (acc : List Nat)
    (h1 : ¬ stop ≤ env.clock n) (h2 : ¬ maxUploadBytes ≤ total)
    (h3 : (env.round n).outcome = .status false) (h4 : 65536 < rb) :
    upLoopGo env stop (fuel + 1) n total rb acc =
      upLoopGo env stop fuel (n + 1) (total + min (env.round n).polled rb)
        (max 65536 (rb / 2)) (rb :: acc) := by
  rw [upLoopGo_succ, if_neg h1, if_neg h2]
  simp only [h3, if_pos h4]

lemma upLoopGo_rejectFloor (env : UpEnv) (stop fuel n total rb : Nat) (acc : List Nat)
    (h1 : ¬ stop ≤ env.clock n) (h2 : ¬ maxUploadBytes ≤ total)
    (h3 : (env.round n).outcome = .status false) (h4 : ¬ 65536 < rb) :
    upLoopGo env stop (fuel + 1) n total rb acc =
      some ⟨total + min (env.round n).polled rb, env.clock (n + 1), .rejectFloor,
        (rb :: acc).reverse⟩ := by
  rw [upLoopGo_succ, if_neg h1, if_neg h2]
  simp only [h3, if_neg h4]

lemma HClock.le_clock {env : UpEnv} (h : HClock env) : ∀ m, m ≤ env.clock m := by
  intro m
  induction m with
  | zero => exact Nat.zero_le _
  | succ m ih =>
    have hm := h m
    omega

lemma upLoopGo_isSome (env : UpEnv) (stop : Nat) (hcl : ∀ m, m ≤ env.clock m) :
    ∀ (f n total rb : Nat) (acc : List Nat), stop ≤ n + f →
      (upLoopGo env stop (f + 1) n total rb acc).isSome = true := by
  intro f
  induction f with
  | zero =>
    intro n total rb acc hle
    have h1 : stop ≤ env.clock n := le_trans (by omega) (hcl n)
    rw [upLoopGo_deadline env stop 0 n total rb acc h1]
    rfl
  | succ f ih =>
    intro n total rb acc hle
    by_cases h1 : stop ≤ env.clock n
    · rw [upLoopGo_deadline env stop (f + 1) n total rb acc h1]; rfl
    · by_cases h2 : maxUploadBytes ≤ total
      · rw [upLoopGo_cap env stop (f + 1) n total rb acc h1 h2]; rfl
      · have hn : n < stop := lt_of_le_of_lt (hcl n) (lt_of_not_le h1)
        rcases ho : (env.round n).outcome with _ | ok
        · rw [upLoopGo_transport env stop (f + 1) n total rb acc h1 h2 ho]; rfl
        · cases ok
          · by_cases h4 : 65536 < rb
            · rw [upLoopGo_rejectHigh env stop (f + 1) n total rb acc h1 h2 ho h4]
              exact ih (n + 1) _ _ _ (by omega)
            · rw [upLoopGo_rejectFloor env stop (f + 1) n total rb acc h1 h2 ho h4]; rfl
          · rw [upLoopGo_success env stop (f + 1) n total rb acc h1 h2 ho]
            exact ih (n + 1) _ _ _ (by omega)

lemma upLoopGo_allReject_exit (env : UpEnv) (stop : Nat)
    (hrej : ∀ m, (env.round m).outcome = .status false) :
    ∀ (f n total rb : Nat) (acc : List Nat) (res : UpResult),
      upLoopGo env stop f n total rb acc = some res →
      res.exit = .deadline ∨ res.exit = .byteCap ∨ res.exit = .rejectFloor := by
  intro f
  induction f with
  | zero =>
    intro n total rb acc res h
    rw [upLoopGo_zero] at h
    exact absurd h (by simp)
  | succ f ih =>
    intro n total rb acc res h
    by_cases h1 : stop ≤ env.clock n
    · rw [upLoopGo_deadline env stop f n total rb acc h1] at h
      cases Option.some.inj h
      left; rfl
    · by_cases h2 : maxUploadBytes ≤ total
      · rw [upLoopGo_cap env stop f n total rb acc h1 h2] at h
        cases Option.some.inj h
        right; left; rfl
      · by_cases h4 : 65536 < rb
        · rw [upLoopGo_rejectHigh env stop f n total rb acc h1 h2 (hrej n) h4] at h
          exact ih (n + 1) _ _ _ res h
        · rw [upLoopGo_rejectFloor env stop f n total rb acc h1 h2 (hrej n) h4] at h
          cases Option.some.inj h
          right; right; rfl

lemma sizeAt_reject (env : UpEnv) (rb0 j : Nat)
    (h : (env.round j).outcome = .status false) :
    sizeAt env rb0 (j + 1) = max 65536 (sizeAt env rb0 j / 2) := by
  rw [sizeAt, h]

lemma sizeAt_keep (env : UpEnv) (rb0 j : Nat)
    (h : (env.round j).outcome ≠ .status false) :
    sizeAt env rb0 (j + 1) = sizeAt env rb0 j := by
  rw [sizeAt]
  rcases ho : (env.round j).outcome with _ | ok
  · rfl
  · cases ok
    · exact absurd ho h
    · rfl

lemma sizeAt_bounds (env : UpEnv) (rb0 : Nat) (h1 : 65536 ≤ rb0) (h2 : rb0 ≤ 8388608) :
    ∀ j, 65536 ≤ sizeAt env rb0 j ∧ sizeAt env rb0 j ≤ 8388608 := by
  intro j
  induction j with
  | zero => exact ⟨h1, h2⟩
  | succ j ih =>
    by_cases ho : (env.round j).outcome = .status false
    · rw [sizeAt_reject env rb0 j ho]
      refine ⟨le_max_left _ _, ?_⟩
      exact max_le (by norm_num) (le_trans (Nat.div_le_self _ _) ih.2)
    · rw [sizeAt_keep env rb0 j ho]
      exact ih

lemma initRequestBytes_bounds (c : Nat) :
    65536 ≤ initRequestBytes c ∧ initRequestBytes c ≤ 8388608 := by
  unfold initRequestBytes
  exact ⟨le_min (by norm_num) (le_max_left _ _), min_le_left _ _⟩

lemma upLoopGo_sizes (env : UpEnv) (stop rb0 : Nat) :
    ∀ (f n total rb : Nat) (acc : List Nat) (res : UpResult),
      rb = sizeAt env rb0 n →
      acc = ((List.range n).map (sizeAt env rb0)).reverse →
      upLoopGo env stop f n total rb acc = some res →
      ∃ m, res.sizes = (List.range m).map (sizeAt env rb0) := by
  intro f
  induction f with
  | zero =>
    intro n total rb acc res _ _ h
    rw [upLoopGo_zero] at h
    exact absurd h (by simp)
  | succ f ih =>
    intro n total rb acc res hrb hacc h
    have hpush : (rb :: acc).reverse = (List.range (n + 1)).map (sizeAt env rb0) := by
      rw [List.reverse_cons, hacc, List.reverse_reverse, List.range_succ, List.map_append,
        hrb]
      rfl
    by_cases h1 : stop ≤ env.clock n
    · rw [upLoopGo_deadline env stop f n total rb acc h1] at h
      cases Option.some.inj h
      exact ⟨n, by simp [hacc]⟩
    · by_cases h2 : maxUploadBytes ≤ total
      · rw [upLoopGo_cap env stop f n total rb acc h1 h2] at h
        cases Option.some.inj h
        exact ⟨n, by simp [hacc]⟩
      · rcases ho : (env.round n).outcome with _ | ok
        · rw [upLoopGo_transport env stop f n total rb acc h1 h2 ho] at h
          cases Option.some.inj h
          exact ⟨n + 1, hpush⟩
        · cases ok
          · by_cases h4 : 65536 < rb
            · rw [upLoopGo_rejectHigh env stop f n total rb acc h1 h2 ho h4] at h
              refine ih (n + 1) _ _ _ res ?_ ?_ h
              · rw [sizeAt_reject env rb0 n ho, hrb]
              · rw [List.range_succ, List.map_append, List.reverse_append, hacc]
                simp [hrb]
            · rw [upLoopGo_rejectFloor env stop f n total rb acc h1 h2 ho h4] at h
              cases Option.some.inj h
              exact ⟨n + 1, hpush⟩
          · rw [upLoopGo_success env stop f n total rb acc h1 h2 ho] at h
            refine ih (n + 1) _ _ _ res ?_ ?_ h
            · rw [sizeAt_keep env rb0 n (by rw [ho]; simp), hrb]
            · rw [List.range_succ, List.map_append, List.reverse_append, hacc]
              simp [hrb]

lemma upLoopGo_total_bound (env : UpEnv) (stop : Nat) :
    ∀ (f n total rb : Nat) (acc : List Nat) (res : UpResult),
      rb ≤ 8388608 →
      (total < maxUploadBytes ∨
        ∃ s, acc.head? = some s ∧ total < maxUploadBytes + s ∧ s ≤ 8388608) →
      upLoopGo env stop f n total rb acc = some res →
      res.total < maxUploadBytes + 8388608 ∧
        ∀ s, res.sizes.getLast? = some s → res.total < maxUploadBytes + s := by
  intro f
  induction f with
  | zero =>
    intro n total rb acc res _ _ h
    rw [upLoopGo_zero] at h
    exact absurd h (by simp)
  | succ f ih =>
    intro n total rb acc res hrb hinv h
    have hexit : ∀ t : Nat, t = total →
        res = ⟨t, env.clock n, .deadline, acc.reverse⟩ ∨
        res = ⟨t, env.clock n, .byteCap, acc.reverse⟩ →
        res.total < maxUploadBytes + 8388608 ∧
          ∀ s, res.sizes.getLast? = some s → res.total < maxUploadBytes + s := by
      intro t ht hres
      have htot : res.total = total ∧ res.sizes = acc.reverse := by
        rcases hres with rfl | rfl <;> exact ⟨ht, rfl⟩
      rcases hinv with hlt | ⟨s, hh, hlt, hs8⟩
      · refine ⟨by omega, ?_⟩
        intro s _
        omega
      · refine ⟨by omega, ?_⟩
        intro s2 hs2
        rw [htot.2, List.getLast?_reverse] at hs2
        rw [hh] at hs2
        cases Option.some.inj hs2
        omega
    by_cases h1 : stop ≤ env.clock n
    · rw [upLoopGo_deadline env stop f n total rb acc h1] at h
      exact hexit total rfl (Or.inl (Option.some.inj h).symm)
    · by_cases h2 : maxUploadBytes ≤ total
      · rw [upLoopGo_cap env stop f n total rb acc h1 h2] at h
        exact hexit total rfl (Or.inr (Option.some.inj h).symm)
      · have hlt : total < maxUploadBytes := lt_of_not_le h2
        have hbreak : ∀ ex : UpExit,
            res = ⟨total + min (env.round n).polled rb, env.clock (n + 1), ex,
              (rb :: acc).reverse⟩ →
            res.total < maxUploadBytes + 8388608 ∧
              ∀ s, res.sizes.getLast? = some s → res.total < maxUploadBytes + s := by
          rintro ex rfl
          have hmin : min (env.round n).polled rb ≤ rb := min_le_right _ _
          refine ⟨by simp only; omega, ?_⟩
          intro s hs
          simp only [List.getLast?_reverse, List.head?_cons] at hs
          cases Option.some.inj hs
          simp only
          omega
        have hnext : (total + min (env.round n).polled rb < maxUploadBytes ∨
            ∃ s, (rb :: acc).head? = some s ∧
              total + min (env.round n).polled rb < maxUploadBytes + s ∧ s ≤ 8388608) := by
          right
          exact ⟨rb, rfl, by have := min_le_right (env.round n).polled rb; omega, hrb⟩
        rcases ho : (env.round n).outcome with _ | ok
        · rw [upLoopGo_transport env stop f n total rb acc h1 h2 ho] at h
          exact hbreak _ (Option.some.inj h).symm
        · cases ok
          · by_cases h4 : 65536 < rb
            · rw [upLoopGo_rejectHigh env stop f n total rb acc h1 h2 ho h4] at h
              refine ih (n + 1) _ _ _ res ?_ hnext h
              exact max_le (by norm_num) (le_trans (Nat.div_le_self _ _) hrb)
            · rw [upLoopGo_rejectFloor env stop f n total rb acc h1 h2 ho h4] at h
              exact hbreak _ (Option.some.inj h).symm
          · rw [upLoopGo_success env stop f n total rb acc h1 h2 ho] at h
            exact ih (n + 1) _ _ _ res hrb hnext h

/-! ## Claim C1 -/

/-- Claim C1, amended.  For every session of either prober, the event
sequence ends with exactly one terminal event (`Finished` or `Error`) and
contains no terminal event before it; every earlier event is a `Started`
or a `Progress`, with all `Started` events preceding all `Progress`
events.  The upload sequence begins with exactly one `Started`.  The
download sequence begins with one `Started` per candidate attempted —
possibly more than one when earlier candidates fail to connect — and
contains at least one `Started` unless HTTP-client construction fails, in
which case the single `Error` is the whole sequence.  (The original
claim's "exactly one Started, which is the first event" fails on the
code: the download prober emits a `Started` for each fallback candidate
it tries.) -/
theorem spec_c1_event_sequence_shape :
    (∀ (env : DlEnv) (url : String) (d : Nat),
      ∃ ss ps t, download_speed_test env url d = ss ++ ps ++ [t] ∧
        (∀ e ∈ ss, isStartedB e = true) ∧ (∀ e ∈ ps, isProgressB e = true) ∧
        isTerminalB t = true ∧ (env.clientErr = none → ss ≠ [])) ∧
    (∀ (env : UpEnv) (url : String) (d c fuel : Nat) (tr : List UploadSpeedEvent),
      upload_speed_test env url d c fuel = some tr →
      ∃ ps t, tr = UploadSpeedEvent.Started url d (effectiveChunk c) :: (ps ++ [t]) ∧
        (∀ e ∈ ps, isProgressUB e = true) ∧ isTerminalUB t = true) := by
  constructor
  · intro env url d
    rcases hce : env.clientErr with _ | e0
    · obtain ⟨u0, rest0, hcand⟩ := candidates_cons url
      have hne : (selectLoop env d (candidates url) 0 none).1 ≠ [] := by
        rw [hcand]
        obtain ⟨tl, htl⟩ := selectLoop_head env d u0 rest0 0 none
        rw [htl]
        simp
      unfold download_speed_test
      rw [hce]
      rcases h2 : (selectLoop env d (candidates url) 0 none).2 with ⟨u, st⟩ | i | le <;>
        simp only [h2]
      · refine ⟨(selectLoop env d (candidates url) 0 none).1, [],
          .Error ("HTTP error from " ++ u ++ ": " ++ st), by rw [List.append_nil],
          fun e he => selectLoop_mem_started env d _ 0 none e he,
          fun e he => absurd he (List.not_mem_nil e), rfl, fun _ => hne⟩
      · refine ⟨(selectLoop env d (candidates url) 0 none).1,
          (dlLoop env (max d 250) (env.streams i) 0 0 0 0).1,
          dlTerminal (dlLoop env (max d 250) (env.streams i) 0 0 0 0).2,
          by rw [List.append_assoc],
          fun e he => selectLoop_mem_started env d _ 0 none e he,
          fun e he => dlLoop_mem_progress env (max d 250) _ 0 0 0 0 e he,
          isTerminalB_dlTerminal _, fun _ => hne⟩
      · refine ⟨(selectLoop env d (candidates url) 0 none).1, [],
          .Error (noStreamMsg le), by rw [List.append_nil],
          fun e he => selectLoop_mem_started env d _ 0 none e he,
          fun e he => absurd he (List.not_mem_nil e), rfl, fun _ => hne⟩
    · refine ⟨[], [],
        .Error ("Failed to build HTTP client:\n" ++ format_error_with_chain e0),
        ?_, ?_, ?_, rfl, ?_⟩
      · unfold download_speed_test
        rw [hce]
        rfl
      · intro e he; exact absurd he (List.not_mem_nil e)
      · intro e he; exact absurd he (List.not_mem_nil e)
      · intro h; exact Option.noConfusion h
  · intro env url d c fuel tr htr
    rcases hce : env.clientErr with _ | e0
    · rw [upload_trace_clientOk env url d c fuel hce] at htr
      rcases hres : upLoopGo env (max d 250) fuel 0 0 (initRequestBytes (effectiveChunk c)) []
          with _ | res <;> rw [hres] at htr
      · exact absurd htr (by simp)
      · simp only [Option.some.injEq] at htr
        refine ⟨uploadProgressEvents env res.endClockMs,
          .Finished (res.endClockMs + 50) res.total (mbpsOf res.total (res.endClockMs + 50)),
          ?_, ?_, rfl⟩
        · exact htr.symm
        · intro e he; exact uploadProgressEvents_mem env res.endClockMs e he
    · rw [upload_trace_clientFail env url d c fuel e0 hce] at htr
      simp only [Option.some.injEq] at htr
      refine ⟨[], .Error ("Failed to build HTTP client:\n" ++ format_error_with_chain e0),
        ?_, ?_, rfl⟩
      · exact htr.symm
      · intro e he; exact absurd he (List.not_mem_nil e)

/-- Claim C1, counterexample.  A download session whose first candidate
fails to connect emits two `Started` events, refuting "the emitted event
sequence contains exactly one Started event". -/
theorem spec_c1_counterexample :
    download_speed_test c1cexEnv "" 500 =
      [.Started fallback1 500, .Started fallback2 500, .Finished 0 0 (mbpsOf 0 0)] ∧
    startedCountD (download_speed_test c1cexEnv "" 500) = 2 :=
  ⟨rfl, rfl⟩

/-! ## Claim C4 -/

/-- Claim C4, confirmed.  In a download session, transport failures on the
first `k` candidates record the error and move selection to the next
candidate (at least `k + 2` `Started` events are emitted when a further
candidate exists), whereas a non-success HTTP status on candidate `k`
(after `k` transport failures) ends the session immediately with a
terminal `Error` naming that candidate and status, attempting no further
fallback candidates. -/
theorem spec_c4_download_fallback_policy :
    (∀ (env : DlEnv) (url : String) (d : Nat) (es : Nat → ErrChain) (k : Nat) (st : String),
      env.clientErr = none →
      k < (candidates url).length →
      (∀ j, j < k → env.conn j = .connectErr (es j)) →
      env.conn k = .response false st →
      download_speed_test env url d =
        ((candidates url).take (k + 1)).map (fun u => .Started u d) ++
          [.Error ("HTTP error from " ++ (candidates url).getD k "" ++ ": " ++ st)]) ∧
    (∀ (env : DlEnv) (url : String) (d : Nat) (es : Nat → ErrChain) (k : Nat),
      env.clientErr = none →
      k + 1 < (candidates url).length →
      (∀ j, j ≤ k → env.conn j = .connectErr (es j)) →
      k + 2 ≤ startedCountD (download_speed_test env url d)) := by
  constructor
  · intro env url d es k st hce hk hf hk2
    have hf0 : ∀ j, j < k → env.conn (0 + j) = .connectErr (es (0 + j)) := by
      intro j hj; simpa using hf j hj
    have hskip := selectLoop_skip env d es k (candidates url) 0 none (le_of_lt hk) hf0
    simp only [Nat.zero_add] at hskip
    have hdrop : (candidates url).drop k =
        (candidates url)[k] :: (candidates url).drop (k + 1) :=
      List.drop_eq_getElem_cons hk
    have hstep : selectLoop env d ((candidates url)[k] :: (candidates url).drop (k + 1)) k
        (if k = 0 then none else some (es (k - 1))) =
        ([.Started ((candidates url)[k]) d], .httpError ((candidates url)[k]) st) := by
      rw [selectLoop, hk2]
      rfl
    rw [hdrop, hstep] at hskip
    unfold download_speed_test
    rw [hce]
    simp only [hskip]
    have htake : (candidates url).take (k + 1) =
        (candidates url).take k ++ [(candidates url)[k]] := by
      rw [List.take_succ, List.getElem?_eq_getElem hk]
      rfl
    have hgetD : (candidates url).getD k "" = (candidates url)[k] :=
      List.getD_eq_getElem (candidates url) "" hk
    rw [htake, hgetD, List.map_append]
    simp
  · intro env url d es k hce hk1 hf
    have hf0 : ∀ j, j < k + 1 → env.conn (0 + j) = .connectErr (es (0 + j)) := by
      intro j hj; simpa using hf j (by omega)
    have hskip := selectLoop_skip env d es (k + 1) (candidates url) 0 none
      (by omega) hf0
    simp only [Nat.zero_add] at hskip
    have hdrop : (candidates url).drop (k + 1) =
        (candidates url)[k + 1] :: (candidates url).drop (k + 2) :=
      List.drop_eq_getElem_cons hk1
    obtain ⟨tl, htl⟩ := selectLoop_head env d ((candidates url)[k + 1])
      ((candidates url).drop (k + 2)) (k + 1) (some (es (k + 1 - 1)))
    obtain ⟨rest2, hr2⟩ := download_trace_sel_prefix env url d hce
    rw [hr2]
    unfold startedCountD
    rw [List.countP_append]
    have hsel1 : (selectLoop env d (candidates url) 0 none).1 =
        ((candidates url).take (k + 1)).map (fun u => .Started u d) ++
          (.Started ((candidates url)[k + 1]) d :: tl) := by
      rw [hskip]
      simp only [if_neg (Nat.succ_ne_zero k)]
      rw [hdrop, htl]
    rw [hsel1, List.countP_append]
    have hall : ∀ e ∈ ((candidates url).take (k + 1)).map
        (fun u => DownloadSpeedEvent.Started u d), isStartedB e = true := by
      intro e he
      rcases List.mem_map.1 he with ⟨u, _, rfl⟩
      rfl
    have hc1 := List.countP_eq_length.2 hall
    rw [List.length_map, List.length_take, Nat.min_eq_left (by omega : k + 1 ≤ (candidates url).length)] at hc1
    have hc2 : 1 ≤ (DownloadSpeedEvent.Started ((candidates url)[k + 1]) d :: tl).countP
        isStartedB := by
      rw [List.countP_cons]
      simp [isStartedB]
    omega

/-- Witness for C4 at a concrete download session. -/
theorem spec_c4_witness :
    download_speed_test c4wEnv "" 600 =
      ((candidates "").take 2).map (fun u => .Started u 600) ++
        [.Error ("HTTP error from " ++ (candidates "").getD 1 "" ++
          ": 500 Internal Server Error")] :=
  spec_c4_download_fallback_policy.1 c4wEnv "" 600 (fun _ => ⟨"connection refused", []⟩) 1
    "500 Internal Server Error" rfl (by decide)
    (by intro j hj
        have hj0 : j = 0 := by omega
        subst hj0
        rfl)
    (by decide)

/-! ## Claim C6 -/

/-- Claim C6, confirmed.  When every candidate fails to connect, the
terminal event is an `Error` whose message is "Request failed:" followed
by the chained text of the last transport error; the chained text is the
top-level message followed by one line per cause prefixed
"caused by: ", walked until the cause chain is exhausted; and the
no-candidates branch produces the generic message (the candidate list
always contains the two fixed fallbacks, so that branch requires an empty
list and is vacuous in a session). -/
theorem spec_c6_all_candidates_fail_error_chain :
    (∀ (env : DlEnv) (url : String) (d : Nat) (es : Nat → ErrChain),
      env.clientErr = none →
      (∀ j, j < (candidates url).length → env.conn j = .connectErr (es j)) →
      download_speed_test env url d =
        (candidates url).map (fun u => .Started u d) ++
          [.Error ("Request failed:\n" ++
            format_error_with_chain (es ((candidates url).length - 1)))]) ∧
    (∀ (m : String) (cs : List String),
      format_error_with_chain ⟨m, cs⟩ =
        m ++ String.join (cs.map (fun c => "\ncaused by: " ++ c))) ∧
    noStreamMsg none = "Request failed: no URL candidates" := by
  refine ⟨?_, ?_, rfl⟩
  · intro env url d es hce hf
    have hf0 : ∀ j, j < (candidates url).length →
        env.conn (0 + j) = .connectErr (es (0 + j)) := by
      intro j hj; simpa using hf j hj
    have hskip := selectLoop_skip env d es (candidates url).length (candidates url) 0 none
      le_rfl hf0
    simp only [Nat.zero_add, List.take_length, List.drop_length] at hskip
    have hlen : (candidates url).length ≠ 0 := by
      have := candidates_length url
      omega
    rw [if_neg hlen] at hskip
    have hnil : selectLoop env d [] (candidates url).length
        (some (es ((candidates url).length - 1))) =
        ([], .exhausted (some (es ((candidates url).length - 1)))) := rfl
    rw [hnil] at hskip
    unfold download_speed_test
    rw [hce]
    simp only [hskip]
    simp [noStreamMsg]
  · intro m cs
    unfold format_error_with_chain
    simp only
    rw [chainSuffix_eq_join]

/-- Witness for C6 at a concrete download session. -/
theorem spec_c6_witness :
    download_speed_test c6wEnv "" 700 =
      (candidates "").map (fun u => .Started u 700) ++
        [.Error ("Request failed:\n" ++
          format_error_with_chain (⟨"network down", ["dns failure"]⟩ : ErrChain))] :=
  spec_c6_all_candidates_fail_error_chain.1 c6wEnv "" 700
    (fun _ => ⟨"network down", ["dns failure"]⟩) rfl (fun j hj => rfl)

/-- Witness for C1 at a concrete upload session. -/
theorem spec_c1_witness :
    ∃ ps t,
      [UploadSpeedEvent.Started "" 300 (effectiveChunk 0),
        UploadSpeedEvent.Error "Failed to build HTTP client:\ntls backend unavailable"] =
        UploadSpeedEvent.Started "" 300 (effectiveChunk 0) :: (ps ++ [t]) ∧
      (∀ e ∈ ps, isProgressUB e = true) ∧ isTerminalUB t = true :=
  spec_c1_event_sequence_shape.2 c1wEnv "" 300 0 5
    [UploadSpeedEvent.Started "" 300 (effectiveChunk 0),
      UploadSpeedEvent.Error "Failed to build HTTP client:\ntls backend unavailable"]
    (by decide)

/-! ## Claim C2 -/

/-- Claim C2, confirmed.  In an upload session, neither a transport failure
of `send()` nor a non-success HTTP response ever produces a terminal
`Error`: the only `Error` is HTTP-client construction failure.  A
transport failure returns a `transportFail` result, stopping the loop
with the bytes measured so far; a non-success response either halves the
request size and continues, or exits at the floor; in every case a
session with a working client ends in a `Finished` event carrying the
loop's byte total, with no `Error` anywhere in the trace. -/
theorem spec_c2_upload_failures_hidden :
    (∀ (env : UpEnv) (url : String) (d c : Nat) (e : ErrChain),
      env.clientErr = some e →
      ∀ fuel, upload_speed_test env url d c fuel =
        some [UploadSpeedEvent.Started url d (effectiveChunk c),
          .Error ("Failed to build HTTP client:\n" ++ format_error_with_chain e)]) ∧
    (∀ (env : UpEnv) (url : String) (d c : Nat),
      env.clientErr = none → HClock env →
      ∃ tr res,
        upLoopGo env (max d 250) (max d 250 + 1) 0 0
          (initRequestBytes (effectiveChunk c)) [] = some res ∧
        upload_speed_test env url d c (max d 250 + 1) = some tr ∧
        (∀ m, UploadSpeedEvent.Error m ∉ tr) ∧
        tr.getLast? = some (.Finished (res.endClockMs + 50) res.total
          (mbpsOf res.total (res.endClockMs + 50)))) ∧
    (∀ (env : UpEnv) (stop fuel n total rb : Nat) (acc : List Nat),
      ¬ stop ≤ env.clock n → ¬ maxUploadBytes ≤ total →
      (env.round n).outcome = .transportErr →
      upLoopGo env stop (fuel + 1) n total rb acc =
        some ⟨total + min (env.round n).polled rb, env.clock (n + 1), .transportFail,
          (rb :: acc).reverse⟩) ∧
    (∀ (env : UpEnv) (stop fuel n total rb : Nat) (acc : List Nat),
      ¬ stop ≤ env.clock n → ¬ maxUploadBytes ≤ total →
      (env.round n).outcome = .status false →
      upLoopGo env stop (fuel + 1) n total rb acc =
        if 65536 < rb then
          upLoopGo env stop fuel (n + 1) (total + min (env.round n).polled rb)
            (max 65536 (rb / 2)) (rb :: acc)
        else
          some ⟨total + min (env.round n).polled rb, env.clock (n + 1), .rejectFloor,
            (rb :: acc).reverse⟩) := by
  refine ⟨?_, ?_, ?_, ?_⟩
  · intro env url d c e hce fuel
    exact upload_trace_clientFail env url d c fuel e hce
  · intro env url d c hce hclk
    have hsome := upLoopGo_isSome env (max d 250) hclk.le_clock (max d 250) 0 0
      (initRequestBytes (effectiveChunk c)) [] (by omega)
    rcases hres : upLoopGo env (max d 250) (max d 250 + 1) 0 0
        (initRequestBytes (effectiveChunk c)) [] with _ | res
    · rw [hres] at hsome; exact absurd hsome (by simp)
    · refine ⟨UploadSpeedEvent.Started url d (effectiveChunk c) ::
        uploadProgressEvents env res.endClockMs ++
        [.Finished (res.endClockMs + 50) res.total (mbpsOf res.total (res.endClockMs + 50))],
        res, rfl, ?_, ?_, ?_⟩
      · rw [upload_trace_clientOk env url d c (max d 250 + 1) hce, hres]
      · intro m hm
        rcases List.mem_cons.1 hm with h | h
        · exact absurd h (by simp)
        · rcases List.mem_append.1 h with h2 | h2
          · have := uploadProgressEvents_mem env res.endClockMs _ h2
            simp [isProgressUB] at this
          · have h3 := List.mem_singleton.1 h2
            exact absurd h3 (by simp)
      · exact getLast?_cons_append _ _ _
  · intro env stop fuel n total rb acc h1 h2 h3
    exact upLoopGo_transport env stop fuel n total rb acc h1 h2 h3
  · intro env stop fuel n total rb acc h1 h2 h3
    by_cases h4 : 65536 < rb
    · rw [if_pos h4]
      exact upLoopGo_rejectHigh env stop fuel n total rb acc h1 h2 h3 h4
    · rw [if_neg h4]
      exact upLoopGo_rejectFloor env stop fuel n total rb acc h1 h2 h3 h4

/-- Witness for C2 at a concrete upload session. -/
theorem spec_c2_witness :
    ∃ tr res,
      upLoopGo c2wEnv (max 0 250) (max 0 250 + 1) 0 0
        (initRequestBytes (effectiveChunk 0)) [] = some res ∧
      upload_speed_test c2wEnv "" 0 0 (max 0 250 + 1) = some tr ∧
      (∀ m, UploadSpeedEvent.Error m ∉ tr) ∧
      tr.getLast? = some (.Finished (res.endClockMs + 50) res.total
        (mbpsOf res.total (res.endClockMs + 50))) :=
  spec_c2_upload_failures_hidden.2.1 c2wEnv "" 0 0 rfl
    (fun m => by simp [c2wEnv])

/-! ## Claim C3 -/

/-- Claim C3, confirmed.  The adaptive request size starts at 16 times the
clamped chunk size, clamped to [64 KiB, 8 MiB]; the size used by the
j-th request follows the recurrence "halved with floor 64 KiB after a
non-success response, otherwise unchanged"; and every request's size lies
in [64 KiB, 8 MiB] — in particular it never goes below 64 KiB. -/
theorem spec_c3_adaptive_size_invariant :
    (∀ (env : UpEnv) (d c fuel : Nat) (res : UpResult),
      upLoopGo env (max d 250) fuel 0 0 (initRequestBytes (effectiveChunk c)) [] =
        some res →
      res.sizes = (List.range res.sizes.length).map
        (sizeAt env (initRequestBytes (effectiveChunk c))) ∧
      ∀ s ∈ res.sizes, 65536 ≤ s ∧ s ≤ 8388608) ∧
    (∀ c, initRequestBytes (effectiveChunk c) =
      min 8388608 (max 65536 (effectiveChunk c * 16))) ∧
    (∀ (env : UpEnv) (rb0 j : Nat), (env.round j).outcome = .status false →
      sizeAt env rb0 (j + 1) = max 65536 (sizeAt env rb0 j / 2)) ∧
    (∀ (env : UpEnv) (rb0 j : Nat), (env.round j).outcome ≠ .status false →
      sizeAt env rb0 (j + 1) = sizeAt env rb0 j) := by
  refine ⟨?_, fun c => rfl, sizeAt_reject, sizeAt_keep⟩
  intro env d c fuel res hres
  obtain ⟨m, hm⟩ := upLoopGo_sizes env (max d 250) (initRequestBytes (effectiveChunk c))
    fuel 0 0 (initRequestBytes (effectiveChunk c)) [] res rfl rfl hres
  have hlen : res.sizes.length = m := by
    rw [hm, List.length_map, List.length_range]
  constructor
  · rw [hlen]
    exact hm
  · intro s hs
    rw [hm] at hs
    rcases List.mem_map.1 hs with ⟨j, _, rfl⟩
    obtain ⟨hb1, hb2⟩ := initRequestBytes_bounds (effectiveChunk c)
    exact sizeAt_bounds env (initRequestBytes (effectiveChunk c)) hb1 hb2 j

/-- Witness for C3 at a concrete upload session. -/
theorem spec_c3_witness :
    (⟨0, 300, .deadline, [1048576, 524288, 524288]⟩ : UpResult).sizes =
      (List.range (⟨0, 300, .deadline, [1048576, 524288, 524288]⟩ : UpResult).sizes.length).map
        (sizeAt c3wEnv (initRequestBytes (effectiveChunk 65536))) ∧
    ∀ s ∈ (⟨0, 300, .deadline, [1048576, 524288, 524288]⟩ : UpResult).sizes,
      65536 ≤ s ∧ s ≤ 8388608 :=
  spec_c3_adaptive_size_invariant.1 c3wEnv 250 65536 300
    ⟨0, 300, .deadline, [1048576, 524288, 524288]⟩ rfl

/-! ## Claim C5 -/

/-- Claim C5, confirmed.  When every request round-trip advances the clock
by at least one millisecond, the transfer loop always terminates within
`max durationMs 250` rounds plus one (a recursion budget of
`max durationMs 250 + 1` suffices); when the server rejects every
request, the loop exits via the deadline, the byte cap, or the 64 KiB
rejection floor; and while the size exceeds 64 KiB, a rejection strictly
shrinks it. -/
theorem spec_c5_upload_loop_terminates :
    (∀ (env : UpEnv) (d c : Nat), HClock env →
      ∃ res, upLoopGo env (max d 250) (max d 250 + 1) 0 0
        (initRequestBytes (effectiveChunk c)) [] = some res) ∧
    (∀ (env : UpEnv) (stop : Nat), (∀ m, (env.round m).outcome = .status false) →
      ∀ (fuel n total rb : Nat) (acc : List Nat) (res : UpResult),
        upLoopGo env stop fuel n total rb acc = some res →
        res.exit = .deadline ∨ res.exit = .byteCap ∨ res.exit = .rejectFloor) ∧
    (∀ rb, 65536 < rb → max 65536 (rb / 2) < rb) := by
  refine ⟨?_, upLoopGo_allReject_exit, ?_⟩
  · intro env d c hclk
    have hsome := upLoopGo_isSome env (max d 250) hclk.le_clock (max d 250) 0 0
      (initRequestBytes (effectiveChunk c)) [] (by omega)
    rcases hres : upLoopGo env (max d 250) (max d 250 + 1) 0 0
        (initRequestBytes (effectiveChunk c)) [] with _ | res
    · rw [hres] at hsome; exact absurd hsome (by simp)
    · exact ⟨res, rfl⟩
  · intro rb h
    have h2 : rb / 2 < rb := Nat.div_lt_self (by omega) (by omega)
    omega

/-- Witness for C5 at a concrete upload session. -/
theorem spec_c5_witness :
    (∃ res, upLoopGo c5wEnv (max 0 250) (max 0 250 + 1) 0 0
      (initRequestBytes (effectiveChunk 0)) [] = some res) ∧
    ((⟨0, 2, .rejectFloor, [131072, 65536]⟩ : UpResult).exit = .deadline ∨
      (⟨0, 2, .rejectFloor, [131072, 65536]⟩ : UpResult).exit = .byteCap ∨
      (⟨0, 2, .rejectFloor, [131072, 65536]⟩ : UpResult).exit = .rejectFloor) :=
  ⟨spec_c5_upload_loop_terminates.1 c5wEnv 0 0 (fun m => by simp [c5wEnv]),
    spec_c5_upload_loop_terminates.2.1 c5wEnv 250 (fun m => rfl) 10 0 0 131072 []
      ⟨0, 2, .rejectFloor, [131072, 65536]⟩ rfl⟩

/-! ## Claim C9 -/

/-- Claim C9, confirmed.  The effective chunk size is the input clamped to
[8 KiB, 1 MiB]; an input of 1,048,576,000 clamps to exactly 1 MiB and an
input of 100 to exactly 8 KiB; and the `Started` event of every upload
session reports the clamped value. -/
theorem spec_c9_chunk_clamped :
    (∀ c, 8192 ≤ effectiveChunk c ∧ effectiveChunk c ≤ 1048576) ∧
    (∀ (env : UpEnv) (url : String) (d c fuel : Nat) (tr : List UploadSpeedEvent),
      upload_speed_test env url d c fuel = some tr →
      tr.head? = some (.Started url d (effectiveChunk c))) ∧
    effectiveChunk 1048576000 = 1048576 ∧ effectiveChunk 100 = 8192 := by
  refine ⟨?_, ?_, rfl, rfl⟩
  · intro c
    unfold effectiveChunk
    exact ⟨le_min (by norm_num) (le_max_left _ _), min_le_left _ _⟩
  · intro env url d c fuel tr htr
    rcases hce : env.clientErr with _ | e0
    · rw [upload_trace_clientOk env url d c fuel hce] at htr
      rcases hres : upLoopGo env (max d 250) fuel 0 0
          (initRequestBytes (effectiveChunk c)) [] with _ | res <;> rw [hres] at htr
      · exact absurd htr (by simp)
      · cases Option.some.inj htr
        rfl
    · rw [upload_trace_clientFail env url d c fuel e0 hce] at htr
      cases Option.some.inj htr
      rfl

/-- Witness for C9 at a concrete upload session. -/
theorem spec_c9_witness :
    ([UploadSpeedEvent.Started "" 100 (effectiveChunk 1048576000),
      UploadSpeedEvent.Error "Failed to build HTTP client:\nbad native tls"]).head? =
      some (UploadSpeedEvent.Started "" 100 (effectiveChunk 1048576000)) :=
  spec_c9_chunk_clamped.2.1 c9wEnv "" 100 1048576000 3
    [UploadSpeedEvent.Started "" 100 (effectiveChunk 1048576000),
      UploadSpeedEvent.Error "Failed to build HTTP client:\nbad native tls"] rfl

/-! ## Claim C10 -/

set_option maxRecDepth 100000 in
/-- Claim C10, confirmed.  The byte counter can exceed the 200 MiB cap,
because the cap is only checked between requests: in a concrete session
the `Finished` event reports 209,977,344 bytes, above the 209,715,200-byte
cap.  The final total is always strictly below the cap plus the size of
the last request, hence below 200 MiB + 8 MiB. -/
theorem spec_c10_byte_cap_overshoot :
    (∀ (env : UpEnv) (d c fuel : Nat) (res : UpResult),
      upLoopGo env (max d 250) fuel 0 0 (initRequestBytes (effectiveChunk c)) [] =
        some res →
      res.total < maxUploadBytes + 8388608 ∧
        ∀ s, res.sizes.getLast? = some s → res.total < maxUploadBytes + s) ∧
    finalBytes? (upload_speed_test c10Env "" 1000 24576 600) = some 209977344 ∧
    maxUploadBytes < 209977344 := by
  refine ⟨?_, rfl, by norm_num [maxUploadBytes]⟩
  intro env d c fuel res hres
  exact upLoopGo_total_bound env (max d 250) fuel 0 0
    (initRequestBytes (effectiveChunk c)) [] res
    (initRequestBytes_bounds (effectiveChunk c)).2
    (Or.inl (by norm_num [maxUploadBytes])) hres

/-- Witness for C10 at a concrete upload session. -/
theorem spec_c10_witness :
    (⟨262144, 250, .deadline, [131072, 131072]⟩ : UpResult).total <
      maxUploadBytes + 8388608 ∧
    ∀ s, (⟨262144, 250, .deadline, [131072, 131072]⟩ : UpResult).sizes.getLast? = some s →
      (⟨262144, 250, .deadline, [131072, 131072]⟩ : UpResult).total < maxUploadBytes + s :=
  spec_c10_byte_cap_overshoot.1 c10wEnv 250 8192 10
    ⟨262144, 250, .deadline, [131072, 131072]⟩ rfl

/-! ## Claim C7 -/

lemma max_secs_eq (ms : Nat) (h : 1 ≤ ms) :
    max ((ms : ℚ) / 1000) (1 / 1000) = (ms : ℚ) / 1000 := by
  apply max_eq_left
  have h1 : (1 : ℚ) ≤ (ms : ℚ) := by exact_mod_cast h
  linarith

/-- Claim C7, amended.  For every session of either prober that ends with a
`Finished` event, the `avgMbps` field equals
`bytes * 8 / ((elapsedMs / 1000) * 1,000,000)` — the cumulative average
over the whole session in megabits per second, computed from the total
bytes and the total elapsed seconds, with the elapsed seconds floored at
0.001.  (The original claim's formula `bytes * 8 / (elapsedMs / 1000)`
omits the division by 1,000,000 that converts bits per second into
megabits per second.) -/
theorem spec_c7_avg_mbps_formula :
    (∀ (env : DlEnv) (url : String) (d e b : Nat) (a : ℚ),
      (download_speed_test env url d).getLast? = some (.Finished e b a) →
      a = ((b : ℚ) * 8) / (max ((e : ℚ) / 1000) (1 / 1000) * 1000000)) ∧
    (∀ (env : UpEnv) (url : String) (d c fuel : Nat) (tr : List UploadSpeedEvent)
      (e b : Nat) (a : ℚ),
      upload_speed_test env url d c fuel = some tr →
      tr.getLast? = some (.Finished e b a) →
      a = ((b : ℚ) * 8) / (max ((e : ℚ) / 1000) (1 / 1000) * 1000000)) := by
  constructor
  · intro env url d e b a h
    unfold download_speed_test at h
    rcases hce : env.clientErr with _ | e0 <;> rw [hce] at h
    · rcases h2 : (selectLoop env d (candidates url) 0 none).2 with ⟨u, st⟩ | i | le <;>
        simp only [h2] at h
      · rw [List.getLast?_concat] at h
        exact absurd (Option.some.inj h) (by simp)
      · rw [List.getLast?_concat] at h
        have h3 := Option.some.inj h
        rcases hend : (dlLoop env (max d 250) (env.streams i) 0 0 0 0).2 with
          ⟨ms, tot⟩ | msg
        · rw [hend] at h3
          simp only [dlTerminal, DownloadSpeedEvent.Finished.injEq] at h3
          rcases h3 with ⟨he, hb, ha⟩
          subst he
          subst hb
          rw [← ha]
          rfl
        · rw [hend] at h3
          simp only [dlTerminal] at h3
          exact absurd h3 (by simp)
      · rw [List.getLast?_concat] at h
        exact absurd (Option.some.inj h) (by simp)
    · simp at h
  · intro env url d c fuel tr e b a htr h
    rcases hce : env.clientErr with _ | e0
    · rw [upload_trace_clientOk env url d c fuel hce] at htr
      rcases hres : upLoopGo env (max d 250) fuel 0 0
          (initRequestBytes (effectiveChunk c)) [] with _ | res <;> rw [hres] at htr
      · exact absurd htr (by simp)
      · cases Option.some.inj htr
        rw [List.cons_append, getLast?_cons_append] at h
        have h3 := Option.some.inj h
        simp only [UploadSpeedEvent.Finished.injEq] at h3
        rcases h3 with ⟨he, hb, ha⟩
        subst he
        subst hb
        rw [← ha]
        rfl
    · rw [upload_trace_clientFail env url d c fuel e0 hce] at htr
      cases Option.some.inj htr
      simp at h

/-- Claim C7, counterexample.  A session receiving 1,000,000 bytes in
1000 ms finishes with `avgMbps = 8` (megabits per second), while the
claimed formula `bytes * 8 / (elapsedMs / 1000)` gives 8,000,000; the two
differ far beyond floating-point tolerance. -/
theorem spec_c7_counterexample :
    (download_speed_test c7cexEnv "" 1000).getLast? =
      some (.Finished 1000 1000000 (mbpsOf 1000000 1000)) ∧
    mbpsOf 1000000 1000 = 8 ∧
    ¬ ((8 : ℚ) = (1000000 : ℚ) * 8 / ((1000 : ℚ) / 1000)) := by
  refine ⟨rfl, ?_, by norm_num⟩
  simp only [mbpsOf]
  rw [max_secs_eq 1000 (by norm_num)]
  norm_num

/-- Witness for C7 at a concrete download session. -/
theorem spec_c7_witness :
    mbpsOf 1000000 1000 =
      (((1000000 : Nat) : ℚ) * 8) /
        (max (((1000 : Nat) : ℚ) / 1000) (1 / 1000) * 1000000) :=
  spec_c7_avg_mbps_formula.1 c7wEnv "" 1000 1000 1000000 (mbpsOf 1000000 1000) rfl

/-! ## Claim C8 -/

/-- Claim C8, confirmed.  A download `Progress` event is produced after a
chunk exactly when at least 250 ms of wall-clock time passed since the
last emission, and its `mbps` is the interval rate
`(bytes since last emission) * 8 / ((seconds since last emission,
floored at 0.001) * 1,000,000)` — not the cumulative average, as the
concrete session shows: its second `Progress` carries the interval rate
over the last 200 bytes and 300 ms, different from the cumulative rate
over 1700 bytes and 600 ms. -/
theorem spec_c8_progress_interval_rate :
    (∀ now lastT total lastB : Nat, 250 ≤ now - lastT →
      progressEmit now lastT total lastB =
        some (.Progress now total
          ((((total - lastB : Nat) : ℚ)) * 8 /
            (max (((now - lastT : Nat) : ℚ) / 1000) (1 / 1000) * 1000000)))) ∧
    (∀ now lastT total lastB : Nat, now - lastT < 250 →
      progressEmit now lastT total lastB = none) ∧
    (download_speed_test c8Env "" 1000 =
      [.Started fallback1 1000,
        .Progress 300 1500 (mbpsOf 1500 300),
        .Progress 600 1700 (mbpsOf 200 300),
        .Finished 900 1700 (mbpsOf 1700 900)] ∧
    mbpsOf 200 300 ≠ mbpsOf 1700 600) := by
  refine ⟨?_, ?_, rfl, ?_⟩
  · intro now lastT total lastB h
    unfold progressEmit
    rw [if_pos h]
    rfl
  · intro now lastT total lastB h
    unfold progressEmit
    rw [if_neg (by omega)]
  · have h1 : mbpsOf 200 300 = 2 / 375 := by
      simp only [mbpsOf]
      rw [max_secs_eq 300 (by norm_num)]
      norm_num
    have h2 : mbpsOf 1700 600 = 17 / 750 := by
      simp only [mbpsOf]
      rw [max_secs_eq 600 (by norm_num)]
      norm_num
    rw [h1, h2]
    norm_num

/-- Witness for C8 at concrete sampling inputs. -/
theorem spec_c8_witness :
    progressEmit 300 0 1500 0 =
      some (.Progress 300 1500
        ((((1500 - 0 : Nat) : ℚ)) * 8 /
          (max (((300 - 0 : Nat) : ℚ) / 1000) (1 / 1000) * 1000000))) :=
  spec_c8_progress_interval_rate.1 300 0 1500 0 (by norm_num)
